import Mathlib

/-!
# Open311 request registry: a shallow embedding of `main.go`

The development follows the Go source function by function.

* Package-level variables (`requests`, `requestCounter`) become the fields of `State`;
  every handler takes the state and returns the new state with its response.
  `services` and `validAPIKey` are never assigned after `init`, so they are constants.
* The handlers run one at a time here: `mu` is not modelled.
* The logging calls write to an external sink and influence neither the state nor the
  response; they are left out.
* `time.Now().UTC()` is an input of `createRequestHandler`.
* A Go map is a list of entries with pairwise distinct keys.  The order in which
  `range` visits a map is unspecified, so the scan loop receives the visiting order as
  an argument (`visit`), which the theorems only assume to be a permutation of the map.
* A Go slice is `Option (List α)`: `none` is the nil slice, `some l` a non-nil slice.
* A response is the status code with the Go value passed to `json.Marshal`; of the
  encoder only the treatment of slices (`marshalSlice`) is spelled out.
* `requestCounter` is a Go `int`.  It starts at `0` and is only ever incremented, and
  every increment stores one more record in `requests`, which is never shrunk; the
  process runs out of address space long before the counter can reach the largest
  `int`.  The counter is therefore a `Nat` and `requestCounter++` is `+ 1`.
-/

namespace Open311

/-! ## Data structures -/

/-- A finite `float64`, as `encoding/json` decodes one from a JSON number:
`(-1)^negative * mantissa * 2^exponent`.  Both signed zeros have `mantissa = 0`. -/
structure Float64 where
  negative : Bool
  mantissa : Nat
  exponent : Int
deriving DecidableEq, Repr

/-- The Go comparison `x == 0` on a `float64`: true for `+0` and for `-0`. -/
def Float64.isZero (x : Float64) : Bool := x.mantissa == 0

/-- A `time.Time` after `.UTC()`: the instant, in nanoseconds since the zero `Time`. -/
abbrev Time := Int

/-- Go struct `Service`. -/
structure Service where
  ServiceCode : String
  ServiceName : String
  Description : String
  Metadata : Bool
  Type_ : String
  Keywords : List String
  Group : String
deriving DecidableEq, Repr

/-- Go struct `ServiceRequestInput`. -/
structure ServiceRequestInput where
  APIKey : String
  ServiceCode : String
  Latitude : Float64
  Longitude : Float64
  AddressString : String
  Email : String
  DeviceID : String
  AccountID : String
  FirstName : String
  LastName : String
  Phone : String
  Description : String
  MediaURL : String
deriving DecidableEq, Repr

/-- Go struct `ServiceRequestOutput`. -/
structure ServiceRequestOutput where
  ServiceRequestID : String
  Status : String
  StatusNotes : String
  ServiceName : String
  ServiceCode : String
  Description : String
  AgencyResponsible : String
  ServiceNotice : String
  RequestedDatetime : Time
  UpdatedDatetime : Time
  ExpectedDatetime : Time
  Address : String
  AddressID : String
  Zipcode : String
  Latitude : Float64
  Longitude : Float64
  MediaURL : String
deriving DecidableEq, Repr

/-! ## In-memory storage -/

/-- A Go `map[string]ServiceRequestOutput`. -/
abbrev RequestMap := List (String × ServiceRequestOutput)

/-- Map index expression `v, found := m[k]`. -/
def RequestMap.get (m : RequestMap) (k : String) : Option ServiceRequestOutput :=
  match m with
  | [] => none
  | e :: rest => if e.1 = k then some e.2 else RequestMap.get rest k

/-- Map assignment `m[k] = v`: the entry under `k`, if any, is replaced. -/
def RequestMap.set (m : RequestMap) (k : String) (v : ServiceRequestOutput) : RequestMap :=
  (k, v) :: m.filter (fun e => decide (e.1 ≠ k))

/-- The mutable package-level variables. -/
structure State where
  requests : RequestMap
  requestCounter : Nat
deriving DecidableEq, Repr

/-- The variable `validAPIKey`. -/
def validAPIKey : String := "your-secret-api-key"

/-- The variable `services` as `init` populates it. -/
def services : List Service :=
  [ { ServiceCode := "001", ServiceName := "Pothole Repair",
      Description := "Report a pothole in a city street.", Metadata := false,
      Type_ := "realtime", Keywords := ["pothole", "street", "road", "damage"],
      Group := "Streets" },
    { ServiceCode := "002", ServiceName := "Graffiti Removal",
      Description := "Report graffiti on public or private property.", Metadata := false,
      Type_ := "realtime", Keywords := ["graffiti", "vandalism", "paint"],
      Group := "Public Works" },
    { ServiceCode := "003", ServiceName := "Broken Streetlight",
      Description := "Report a streetlight that is out or malfunctioning.",
      Metadata := false, Type_ := "batch", Keywords := ["streetlight", "light", "outage"],
      Group := "Utilities" } ]

/-- The state after `init`: `requests = make(map...)`, `requestCounter = 0`. -/
def State.init : State := { requests := [], requestCounter := 0 }

/-! ## Requests and responses -/

/-- What `createRequestHandler` reads of an `*http.Request`: the method and the outcome of
`json.NewDecoder(r.Body).Decode(&input)` (the error text or the decoded input). -/
structure PostRequest where
  Method : String
  Body : Except String ServiceRequestInput

/-- What `getRequestsHandler` reads of an `*http.Request`: the method,
`r.PathValue("service_request_id")` (empty when the route has no such segment) and the
query parameters `service_code` and `status` (empty when absent). -/
structure GetRequest where
  Method : String
  PathID : String
  QueryServiceCode : String
  QueryStatus : String
deriving DecidableEq, Repr

/-- The value handed to `respondWithJSON` as `payload`. -/
inductive Payload where
  | object (fields : List (String × String))
  | serviceList (l : List Service)
  | requestList (l : Option (List ServiceRequestOutput))
deriving DecidableEq, Repr

/-- The status code and payload written to the `http.ResponseWriter`. -/
structure Response where
  status : Nat
  payload : Payload
deriving DecidableEq, Repr

/-! ## Library functions -/

/-- The verb `%06d` of `fmt.Sprintf` on a non-negative integer: the decimal digits, padded
on the left with `0` to a width of at least six. -/
def sprintf06d (n : Nat) : List Char :=
  let ds := Nat.toDigits 10 n
  List.replicate (6 - ds.length) '0' ++ ds

/-- Function `strconv.Itoa` on a non-negative integer. -/
def itoa (n : Nat) : String := String.mk (Nat.toDigits 10 n)

/-- Built-in `append(s, x)` on a possibly nil slice. -/
def sliceAppend {α : Type} (s : Option (List α)) (x : α) : Option (List α) :=
  match s with
  | none => some [x]
  | some l => some (l ++ [x])

/-- Function `json.Marshal` on a slice, given the encoding `enc` of one element: a nil slice
is encoded as `null`, any other slice as a bracketed, comma-separated array. -/
def marshalSlice {α : Type} (enc : α → String) (s : Option (List α)) : String :=
  match s with
  | none => "null"
  | some l => "[" ++ String.intercalate "," (l.map enc) ++ "]"

/-! ## Helper functions -/

/-- Go function `findServiceByCode`. -/
def findServiceByCode (code : String) : Option Service :=
  services.find? (fun s => decide (s.ServiceCode = code))

/-- Go function `respondWithJSON`.  The response is the status with the payload to be
marshalled.  `json.Marshal` fails only on values the handlers never build (non-finite
floats, timestamps outside the years 0 to 9999), so its error branch is not taken. -/
def respondWithJSON (code : Nat) (payload : Payload) : Response :=
  { status := code, payload := payload }

/-- Go function `respondWithError`. -/
def respondWithError (code : Nat) (message : String) : Response :=
  respondWithJSON code (.object [("error", message), ("code", itoa code)])

/-! ## Handlers -/

/-- Go function `getServicesHandler`. -/
def getServicesHandler (st : State) (method : String) : State × Response :=
  if method ≠ "GET" then
    (st, respondWithError 405 "Method Not Allowed")
  else
    (st, respondWithJSON 200 (.serviceList services))

/-- Go function `createRequestHandler`; `now` is the value of `time.Now().UTC()`. -/
def createRequestHandler (st : State) (now : Time) (r : PostRequest) : State × Response :=
  if r.Method ≠ "POST" then
    (st, respondWithError 405 "Method Not Allowed")
  else
    match r.Body with
    | .error err => (st, respondWithError 400 ("Invalid request payload: " ++ err))
    | .ok input =>
      if input.APIKey ≠ validAPIKey then
        (st, respondWithError 401 "Invalid or missing API key.")
      else if input.ServiceCode = "" then
        (st, respondWithError 400 "service_code is required.")
      else
        match findServiceByCode input.ServiceCode with
        | none => (st, respondWithError 400 "Invalid service_code.")
        | some service =>
          if input.Latitude.isZero && input.Longitude.isZero
              && decide (input.AddressString = "") then
            (st, respondWithError 400 "Either lat/long or address_string is required.")
          else
            let requestCounter := st.requestCounter + 1
            let serviceRequestID := "SR" ++ String.mk (sprintf06d requestCounter)
            let newRequest : ServiceRequestOutput :=
              { ServiceRequestID := serviceRequestID
                Status := "open"
                StatusNotes := "Request received and is pending review."
                ServiceName := service.ServiceName
                ServiceCode := input.ServiceCode
                Description := input.Description
                AgencyResponsible := "City Department of " ++ service.Group
                ServiceNotice := ""
                RequestedDatetime := now
                UpdatedDatetime := now
                ExpectedDatetime := 0
                Address := input.AddressString
                AddressID := ""
                Zipcode := ""
                Latitude := input.Latitude
                Longitude := input.Longitude
                MediaURL := input.MediaURL }
            ({ requests := st.requests.set serviceRequestID newRequest
               requestCounter := requestCounter },
             respondWithJSON 201 (.requestList (some [newRequest])))

/-- The loop `for _, req := range requests` of `getRequestsHandler`, over the entries in the
order `visit`; `results` is the slice built so far. -/
def scanLoop (filterServiceCode filterStatus : String)
    (visit : List (String × ServiceRequestOutput))
    (results : Option (List ServiceRequestOutput)) : Option (List ServiceRequestOutput) :=
  match visit with
  | [] => results
  | e :: rest =>
    let req := e.2
    let m := true
    let m := if filterServiceCode ≠ "" ∧ req.ServiceCode ≠ filterServiceCode then false else m
    let m := if filterStatus ≠ "" ∧ req.Status ≠ filterStatus then false else m
    scanLoop filterServiceCode filterStatus rest (if m then sliceAppend results req else results)

/-- Go function `getRequestsHandler`; `visit` is the order in which `range` visits the
entries of `requests`. -/
def getRequestsHandler (st : State) (visit : List (String × ServiceRequestOutput))
    (r : GetRequest) : State × Response :=
  if r.Method ≠ "GET" then
    (st, respondWithError 405 "Method Not Allowed")
  else
    let serviceRequestID := r.PathID
    if serviceRequestID ≠ "" then
      match st.requests.get serviceRequestID with
      | none =>
        (st, respondWithError 404 ("Service request not found: " ++ serviceRequestID))
      | some request => (st, respondWithJSON 200 (.requestList (some [request])))
    else
      let filterServiceCode := r.QueryServiceCode
      let filterStatus := r.QueryStatus
      let results := scanLoop filterServiceCode filterStatus visit none
      (st, respondWithJSON 200 (.requestList results))

/-! ## Sequences of handler calls -/

/-- One call of a handler.  A `get` call carries the choice `order` the runtime makes for
the iteration order of the map. -/
inductive Call where
  | services (method : String)
  | post (now : Time) (r : PostRequest)
  | get (order : RequestMap → RequestMap) (r : GetRequest)

/-- Run one handler call. -/
def step (st : State) (c : Call) : State × Response :=
  match c with
  | .services method => getServicesHandler st method
  | .post now r => createRequestHandler st now r
  | .get order r => getRequestsHandler st (order st.requests) r

/-- Run the calls one after another; the final state and the responses in call order. -/
def run (st : State) (cs : List Call) : State × List Response :=
  match cs with
  | [] => (st, [])
  | c :: rest =>
    let out := step st c
    let tail := run out.1 rest
    (tail.1, out.2 :: tail.2)

/-! ## Reading identifiers -/

/-- The decimal value of a digit string. -/
def parseDecimal (cs : List Char) : Nat :=
  cs.foldl (fun acc c => 10 * acc + (c.toNat - 48)) 0

/-- The numeric portion of a service request identifier: the value of what follows the
two-character prefix. -/
def numericPortion (id : String) : Nat := parseDecimal (id.data.drop 2)

/-- The regular expression `^SR\d{6}$`. -/
def matchesSR6 (id : String) : Bool :=
  match id.data with
  | 'S' :: 'R' :: ds => ds.length == 6 && ds.all Char.isDigit
  | _ => false

/-- The regular expression `^SR\d{6,}$`. -/
def matchesSR6Plus (id : String) : Bool :=
  match id.data with
  | 'S' :: 'R' :: ds => decide (6 ≤ ds.length) && ds.all Char.isDigit
  | _ => false

/-- The identifiers of the records returned by the responses with status 201, in order. -/
def createdIDs (rs : List Response) : List String :=
  rs.flatMap fun resp =>
    match resp.status, resp.payload with
    | 201, .requestList (some l) => l.map (·.ServiceRequestID)
    | _, _ => []

/-- The identifier minted from counter value `n`. -/
def mintID (n : Nat) : String := "SR" ++ String.mk (sprintf06d n)

/-! ## Invariant -/

/-- What holds of every stored entry in a reachable state: the key is the identifier of a
counter value already used, and the record carries that identifier, the status `open`, a
catalog service code and equal timestamps. -/
def StoredOK (st : State) : Prop :=
  ∀ e ∈ st.requests,
    (∃ n, 1 ≤ n ∧ n ≤ st.requestCounter ∧ e.1 = mintID n)
    ∧ e.2.ServiceRequestID = e.1
    ∧ e.2.Status = "open"
    ∧ (∃ s ∈ services, s.ServiceCode = e.2.ServiceCode)
    ∧ e.2.RequestedDatetime = e.2.UpdatedDatetime

/-! ## Sample inputs -/

/-- A request body that passes every check: service `001` with a location. -/
def sampleInput : ServiceRequestInput :=
  { APIKey := "your-secret-api-key", ServiceCode := "001",
    Latitude := ⟨false, 75, -1⟩, Longitude := ⟨true, 489, -2⟩, AddressString := "",
    Email := "", DeviceID := "", AccountID := "", FirstName := "", LastName := "",
    Phone := "", Description := "Big hole", MediaURL := "" }

/-- The POST carrying `sampleInput`. -/
def samplePost : PostRequest := { Method := "POST", Body := .ok sampleInput }

/-- The record created from `sampleInput` under identifier `id` at time `now`. -/
def sampleRecord (id : String) (now : Time) : ServiceRequestOutput :=
  { ServiceRequestID := id, Status := "open",
    StatusNotes := "Request received and is pending review.",
    ServiceName := "Pothole Repair", ServiceCode := "001", Description := "Big hole",
    AgencyResponsible := "City Department of Streets", ServiceNotice := "",
    RequestedDatetime := now, UpdatedDatetime := now, ExpectedDatetime := 0,
    Address := "", AddressID := "", Zipcode := "",
    Latitude := ⟨false, 75, -1⟩, Longitude := ⟨true, 489, -2⟩, MediaURL := "" }

/-- A registry holding two records, with its counter. -/
def sampleState : State :=
  { requests := [("SR000002", sampleRecord "SR000002" 6), ("SR000001", sampleRecord "SR000001" 5)]
    requestCounter := 2 }

/-! ## Decimal formatting -/

theorem digitChar_toNat (d : Nat) (h : d < 10) : (Nat.digitChar d).toNat - 48 = d := by
  interval_cases d <;> rfl

theorem digitChar_isDigit (d : Nat) (h : d < 10) : (Nat.digitChar d).isDigit = true := by
  interval_cases d <;> rfl

theorem foldl_decimal (cs : List Char) (a : Nat) :
    cs.foldl (fun acc c => 10 * acc + (c.toNat - 48)) a
      = a * 10 ^ cs.length + parseDecimal cs := by
  induction cs generalizing a with
  | nil => simp [parseDecimal]
  | cons c cs ih =>
    simp only [List.foldl_cons, parseDecimal, List.length_cons]
    rw [ih, ih (10 * 0 + (c.toNat - 48))]
    ring

theorem parseDecimal_cons (c : Char) (cs : List Char) :
    parseDecimal (c :: cs) = (c.toNat - 48) * 10 ^ cs.length + parseDecimal cs := by
  have := foldl_decimal cs (10 * 0 + (c.toNat - 48))
  simpa [parseDecimal] using this

theorem parseDecimal_toDigitsCore (fuel : Nat) :
    ∀ (n : Nat) (ds : List Char), n < fuel →
      parseDecimal (Nat.toDigitsCore 10 fuel n ds) = n * 10 ^ ds.length + parseDecimal ds := by
  induction fuel with
  | zero => intro n ds h; omega
  | succ fuel ih =>
    intro n ds h
    simp only [Nat.toDigitsCore]
    have hd := digitChar_toNat (n % 10) (Nat.mod_lt _ (by norm_num))
    split
    · rename_i h0
      rw [parseDecimal_cons, hd]
      have : n % 10 = n := by omega
      rw [this]
    · rename_i h0
      rw [ih (n / 10) _ (by omega), parseDecimal_cons, hd, List.length_cons, pow_succ]
      have hn : n = 10 * (n / 10) + n % 10 := (Nat.div_add_mod n 10).symm
      generalize n / 10 = q at hn ⊢
      generalize n % 10 = r at hn ⊢
      subst hn
      ring

theorem isDigit_toDigitsCore (fuel : Nat) :
    ∀ (n : Nat) (ds : List Char), (∀ c ∈ ds, c.isDigit = true) →
      ∀ c ∈ Nat.toDigitsCore 10 fuel n ds, c.isDigit = true := by
  induction fuel with
  | zero => intro n ds h; simpa [Nat.toDigitsCore] using h
  | succ fuel ih =>
    intro n ds h
    simp only [Nat.toDigitsCore]
    have hd := digitChar_isDigit (n % 10) (Nat.mod_lt _ (by norm_num))
    have h2 : ∀ c ∈ Nat.digitChar (n % 10) :: ds, c.isDigit = true := by
      intro c hc
      rcases List.mem_cons.1 hc with rfl | hc
      · exact hd
      · exact h c hc
    split
    · exact h2
    · exact ih _ _ h2

theorem length_toDigitsCore_ge (fuel : Nat) :
    ∀ (n : Nat) (ds : List Char), 0 < fuel →
      ds.length + 1 ≤ (Nat.toDigitsCore 10 fuel n ds).length := by
  induction fuel with
  | zero => intro n ds h; omega
  | succ fuel ih =>
    intro n ds _
    simp only [Nat.toDigitsCore]
    split
    · simp
    · rename_i h0
      rcases Nat.eq_zero_or_pos fuel with hf | hf
      · subst hf; simp [Nat.toDigitsCore]
      · have := ih (n / 10) (Nat.digitChar (n % 10) :: ds) hf
        simp only [List.length_cons] at this
        omega

theorem length_toDigitsCore_le_iff (fuel : Nat) :
    ∀ (n : Nat) (ds : List Char) (k : Nat), n < fuel →
      ((Nat.toDigitsCore 10 fuel n ds).length ≤ ds.length + (k + 1) ↔ n < 10 ^ (k + 1)) := by
  induction fuel with
  | zero => intro n ds k h; omega
  | succ fuel ih =>
    intro n ds k h
    simp only [Nat.toDigitsCore]
    split
    · rename_i h0
      have h10 : n < 10 := by omega
      have : 10 ^ 1 ≤ 10 ^ (k + 1) := Nat.pow_le_pow_right (by norm_num) (by omega)
      simp only [List.length_cons]
      constructor
      · intro _; omega
      · intro _; omega
    · rename_i h0
      have hlt : n / 10 < fuel := by omega
      cases k with
      | zero =>
        have := length_toDigitsCore_ge fuel (n / 10) (Nat.digitChar (n % 10) :: ds) (by omega)
        simp only [List.length_cons] at this
        constructor
        · intro h; omega
        · intro h; simp at h; omega
      | succ k =>
        have := ih (n / 10) (Nat.digitChar (n % 10) :: ds) k hlt
        simp only [List.length_cons] at this
        rw [show ds.length + (k + 1 + 1) = ds.length + 1 + (k + 1) by omega, this]
        rw [pow_succ 10 (k + 1)]
        constructor
        · intro h; omega
        · intro h; omega

theorem parseDecimal_replicate_zero (k : Nat) (cs : List Char) :
    parseDecimal (List.replicate k '0' ++ cs) = parseDecimal cs := by
  induction k with
  | zero => simp
  | succ k ih =>
    rw [List.replicate_succ, List.cons_append, parseDecimal_cons, ih]
    simp

theorem parseDecimal_sprintf06d (n : Nat) : parseDecimal (sprintf06d n) = n := by
  unfold sprintf06d
  simp only
  rw [parseDecimal_replicate_zero, Nat.toDigits, parseDecimal_toDigitsCore _ _ _ (Nat.lt_succ_self n)]
  simp [parseDecimal]

theorem isDigit_sprintf06d (n : Nat) : ∀ c ∈ sprintf06d n, c.isDigit = true := by
  intro c hc
  unfold sprintf06d at hc
  simp only [List.mem_append] at hc
  rcases hc with hc | hc
  · rw [(List.mem_replicate.1 hc).2]; rfl
  · exact isDigit_toDigitsCore _ _ _ (by simp) c hc

theorem length_toDigits_le_six_iff (n : Nat) :
    (Nat.toDigits 10 n).length ≤ 6 ↔ n < 1000000 := by
  have := length_toDigitsCore_le_iff (n + 1) n [] 5 (Nat.lt_succ_self n)
  simpa [Nat.toDigits] using this

theorem length_sprintf06d_ge (n : Nat) : 6 ≤ (sprintf06d n).length := by
  unfold sprintf06d
  simp only [List.length_append, List.length_replicate]
  omega

theorem length_sprintf06d_eq_six_iff (n : Nat) :
    (sprintf06d n).length = 6 ↔ n < 1000000 := by
  rw [← length_toDigits_le_six_iff]
  unfold sprintf06d
  simp only [List.length_append, List.length_replicate]
  omega

theorem mintID_data (n : Nat) : (mintID n).data = 'S' :: 'R' :: sprintf06d n := by
  simp [mintID, String.data_append]

theorem numericPortion_mintID (n : Nat) : numericPortion (mintID n) = n := by
  simp [numericPortion, mintID_data, parseDecimal_sprintf06d]

theorem mintID_injective : Function.Injective mintID := by
  intro a b h
  have := congrArg numericPortion h
  simpa [numericPortion_mintID] using this

theorem matchesSR6Plus_mintID (n : Nat) : matchesSR6Plus (mintID n) = true := by
  simp only [matchesSR6Plus, mintID_data]
  simp only [Bool.and_eq_true, decide_eq_true_eq, List.all_eq_true]
  exact ⟨length_sprintf06d_ge n, isDigit_sprintf06d n⟩

theorem matchesSR6_mintID (n : Nat) : matchesSR6 (mintID n) = true ↔ n < 1000000 := by
  simp only [matchesSR6, mintID_data]
  simp only [Bool.and_eq_true, beq_iff_eq, List.all_eq_true, length_sprintf06d_eq_six_iff]
  exact ⟨fun h => h.1, fun h => ⟨h, isDigit_sprintf06d n⟩⟩

/-! ## The map -/

theorem RequestMap.get_eq_none_of_forall (m : RequestMap) (k : String)
    (h : ∀ e ∈ m, e.1 ≠ k) : m.get k = none := by
  induction m with
  | nil => rfl
  | cons e rest ih =>
    have h1 : e.1 ≠ k := h e (List.mem_cons_self _ _)
    simp only [RequestMap.get, if_neg h1]
    exact ih (fun e' he' => h e' (List.mem_cons_of_mem _ he'))

theorem RequestMap.mem_of_get (m : RequestMap) (k : String) (v : ServiceRequestOutput)
    (h : m.get k = some v) : (k, v) ∈ m := by
  induction m with
  | nil => simp [RequestMap.get] at h
  | cons e rest ih =>
    simp only [RequestMap.get] at h
    split at h
    · rename_i hk
      cases h
      rw [← hk]
      exact List.mem_cons_self _ _
    · exact List.mem_cons_of_mem _ (ih h)

theorem RequestMap.get_set_same (m : RequestMap) (k : String) (v : ServiceRequestOutput) :
    (m.set k v).get k = some v := by
  simp [RequestMap.set, RequestMap.get]

theorem RequestMap.get_filter_ne (m : RequestMap) (k k' : String) (h : k' ≠ k) :
    RequestMap.get (m.filter (fun e => decide (e.1 ≠ k))) k' = m.get k' := by
  induction m with
  | nil => rfl
  | cons e rest ih =>
    by_cases he : e.1 = k
    · have hne : e.1 ≠ k' := by rw [he]; exact fun h' => h h'.symm
      rw [List.filter_cons_of_neg (by simpa using he)]
      simp only [RequestMap.get, if_neg hne]
      exact ih
    · rw [List.filter_cons_of_pos (by simpa using he)]
      simp only [RequestMap.get]
      rw [ih]

theorem RequestMap.get_set_ne (m : RequestMap) (k k' : String) (v : ServiceRequestOutput)
    (h : k' ≠ k) : (m.set k v).get k' = m.get k' := by
  have hk : k ≠ k' := fun h' => h h'.symm
  simp only [RequestMap.set, RequestMap.get, if_neg hk]
  exact RequestMap.get_filter_ne m k k' h

theorem RequestMap.mem_set (m : RequestMap) (k : String) (v : ServiceRequestOutput)
    (e : String × ServiceRequestOutput) (h : e ∈ m.set k v) : e = (k, v) ∨ e ∈ m := by
  simp only [RequestMap.set, List.mem_cons, List.mem_filter] at h
  rcases h with h | h
  · exact Or.inl h
  · exact Or.inr h.1

/-! ## The handlers, case by case -/

theorem respondWithError_status (code : Nat) (msg : String) :
    (respondWithError code msg).status = code := rfl

/-- Every call of `createRequestHandler` either leaves the state alone and answers with a
status other than 201, or passes all four checks, stores the new record under the next
identifier and answers 201 with that record. -/
theorem createRequestHandler_cases (st : State) (now : Time) (r : PostRequest) :
    ((createRequestHandler st now r).1 = st ∧ (createRequestHandler st now r).2.status ≠ 201
      ∧ ¬ (r.Method = "POST" ∧ ∃ i, r.Body = .ok i ∧ i.APIKey = validAPIKey
            ∧ i.ServiceCode ≠ "" ∧ (∃ s ∈ services, s.ServiceCode = i.ServiceCode)
            ∧ ¬ (i.Latitude.isZero = true ∧ i.Longitude.isZero = true ∧ i.AddressString = "")))
    ∨ (∃ i service rec, r.Method = "POST" ∧ r.Body = .ok i ∧ i.APIKey = validAPIKey
        ∧ i.ServiceCode ≠ ""
        ∧ findServiceByCode i.ServiceCode = some service
        ∧ ¬ (i.Latitude.isZero = true ∧ i.Longitude.isZero = true ∧ i.AddressString = "")
        ∧ rec = { ServiceRequestID := mintID (st.requestCounter + 1)
                  Status := "open"
                  StatusNotes := "Request received and is pending review."
                  ServiceName := service.ServiceName
                  ServiceCode := i.ServiceCode
                  Description := i.Description
                  AgencyResponsible := "City Department of " ++ service.Group
                  ServiceNotice := ""
                  RequestedDatetime := now
                  UpdatedDatetime := now
                  ExpectedDatetime := 0
                  Address := i.AddressString
                  AddressID := ""
                  Zipcode := ""
                  Latitude := i.Latitude
                  Longitude := i.Longitude
                  MediaURL := i.MediaURL }
        ∧ createRequestHandler st now r
            = ({ requests := st.requests.set (mintID (st.requestCounter + 1)) rec
                 requestCounter := st.requestCounter + 1 },
               { status := 201, payload := .requestList (some [rec]) })) := by
  obtain ⟨method, body⟩ := r
  by_cases hm : method = "POST"
  swap
  · refine Or.inl ⟨?_, ?_, fun h => hm h.1⟩ <;> simp [createRequestHandler, hm, respondWithError_status]
  rcases body with err | i
  · refine Or.inl ⟨?_, ?_, ?_⟩
    · simp [createRequestHandler, hm]
    · simp [createRequestHandler, hm, respondWithError_status]
    · rintro ⟨_, j, hj, _⟩
      cases hj
  by_cases hk : i.APIKey = validAPIKey
  swap
  · refine Or.inl ⟨?_, ?_, ?_⟩
    · simp [createRequestHandler, hm, hk]
    · simp [createRequestHandler, hm, hk, respondWithError_status]
    · rintro ⟨_, j, hj, hjk, _⟩
      cases hj
      exact hk hjk
  by_cases hc : i.ServiceCode = ""
  · refine Or.inl ⟨?_, ?_, ?_⟩
    · simp [createRequestHandler, hm, hk, hc]
    · simp [createRequestHandler, hm, hk, hc, respondWithError_status]
    · rintro ⟨_, j, hj, _, hjc, _⟩
      cases hj
      exact hjc hc
  rcases hf : findServiceByCode i.ServiceCode with _ | service
  · refine Or.inl ⟨?_, ?_, ?_⟩
    · simp [createRequestHandler, hm, hk, hc, hf]
    · simp [createRequestHandler, hm, hk, hc, hf, respondWithError_status]
    · rintro ⟨_, j, hj, _, _, ⟨s, hs, hsc⟩, _⟩
      cases hj
      have := List.find?_eq_none.1 hf s hs
      simp [hsc] at this
  by_cases hl : (i.Latitude.isZero && i.Longitude.isZero && decide (i.AddressString = "")) = true
  · refine Or.inl ⟨?_, ?_, ?_⟩
    · simp [createRequestHandler, hm, hk, hc, hf, hl]
    · simp [createRequestHandler, hm, hk, hc, hf, hl, respondWithError_status]
    · rintro ⟨_, j, hj, _, _, _, hn⟩
      cases hj
      simp only [Bool.and_eq_true, decide_eq_true_eq] at hl
      exact hn ⟨hl.1.1, hl.1.2, hl.2⟩
  · refine Or.inr ⟨i, service, _, hm, rfl, hk, hc, hf, ?_, rfl, ?_⟩
    · simp only [Bool.and_eq_true, decide_eq_true_eq] at hl
      tauto
    · simp [createRequestHandler, hm, hk, hc, hf, hl, respondWithJSON, mintID]

/-! ## Runs -/

theorem createdIDs_cons (r : Response) (rs : List Response) :
    createdIDs (r :: rs) = createdIDs [r] ++ createdIDs rs := by
  simp [createdIDs]

theorem createdIDs_of_status_ne (r : Response) (h : r.status ≠ 201) : createdIDs [r] = [] := by
  obtain ⟨status, payload⟩ := r
  simp only [createdIDs, List.flatMap_cons, List.flatMap_nil, List.append_nil]
  split
  · rename_i h1 h2
    exact absurd rfl h
  · rfl

theorem getServicesHandler_fst (st : State) (method : String) :
    (getServicesHandler st method).1 = st := by
  unfold getServicesHandler; split <;> rfl

theorem getServicesHandler_status (st : State) (method : String) :
    (getServicesHandler st method).2.status ≠ 201 := by
  unfold getServicesHandler; split <;> simp [respondWithError_status, respondWithJSON]

theorem getRequestsHandler_fst (st : State) (visit : RequestMap) (r : GetRequest) :
    (getRequestsHandler st visit r).1 = st := by
  unfold getRequestsHandler
  split
  · rfl
  · simp only
    split
    · split <;> rfl
    · rfl

theorem getRequestsHandler_status (st : State) (visit : RequestMap) (r : GetRequest) :
    (getRequestsHandler st visit r).2.status ≠ 201 := by
  unfold getRequestsHandler
  split
  · simp [respondWithError_status]
  · simp only
    split
    · split <;> simp [respondWithError_status, respondWithJSON]
    · simp [respondWithJSON]

theorem findServiceByCode_some (code : String) (s : Service)
    (h : findServiceByCode code = some s) : s ∈ services ∧ s.ServiceCode = code := by
  unfold findServiceByCode at h
  exact ⟨List.mem_of_find?_eq_some h, by simpa using List.find?_some h⟩

/-- One handler call either leaves the state alone and returns no identifier, or stores a
well-formed record under the next identifier and returns it with status 201. -/
theorem step_cases (st : State) (c : Call) :
    ((step st c).1 = st ∧ (step st c).2.status ≠ 201)
    ∨ ∃ rec : ServiceRequestOutput,
        rec.ServiceRequestID = mintID (st.requestCounter + 1)
        ∧ rec.Status = "open"
        ∧ (∃ s ∈ services, s.ServiceCode = rec.ServiceCode)
        ∧ rec.RequestedDatetime = rec.UpdatedDatetime
        ∧ step st c
            = ({ requests := st.requests.set (mintID (st.requestCounter + 1)) rec
                 requestCounter := st.requestCounter + 1 },
               { status := 201, payload := .requestList (some [rec]) }) := by
  cases c with
  | services method =>
    exact Or.inl ⟨getServicesHandler_fst st method, getServicesHandler_status st method⟩
  | get order r =>
    exact Or.inl ⟨getRequestsHandler_fst st _ r, getRequestsHandler_status st _ r⟩
  | post now r =>
    rcases createRequestHandler_cases st now r with ⟨h1, h2, _⟩ | ⟨i, service, rec, _, _, _, _, hf, _, hrec, hres⟩
    · exact Or.inl ⟨h1, h2⟩
    · refine Or.inr ⟨rec, ?_, ?_, ?_, ?_, hres⟩
      · rw [hrec]
      · rw [hrec]
      · have := findServiceByCode_some _ _ hf
        exact ⟨service, this.1, by rw [hrec]; exact this.2⟩
      · rw [hrec]

theorem run_cons (st : State) (c : Call) (cs : List Call) :
    run st (c :: cs) = ((run (step st c).1 cs).1, (step st c).2 :: (run (step st c).1 cs).2) := rfl

theorem run_append (cs₁ cs₂ : List Call) (st : State) :
    run st (cs₁ ++ cs₂)
      = ((run (run st cs₁).1 cs₂).1, (run st cs₁).2 ++ (run (run st cs₁).1 cs₂).2) := by
  induction cs₁ generalizing st with
  | nil => rfl
  | cons c cs ih => simp only [List.cons_append, run_cons, ih]

/-- From any state, the identifiers created by a run are those of the next counter values
in order, and the counter advances by their number. -/
theorem run_createdIDs (cs : List Call) (st : State) :
    ∃ m, createdIDs (run st cs).2 = (List.range m).map (fun k => mintID (st.requestCounter + k + 1))
      ∧ (run st cs).1.requestCounter = st.requestCounter + m := by
  induction cs generalizing st with
  | nil => exact ⟨0, rfl, rfl⟩
  | cons c cs ih =>
    rw [run_cons, createdIDs_cons]
    rcases step_cases st c with ⟨h1, h2⟩ | ⟨rec, hid, _, _, _, hres⟩
    · obtain ⟨m, hm1, hm2⟩ := ih (step st c).1
      rw [h1] at hm1 hm2
      refine ⟨m, ?_, ?_⟩
      · rw [createdIDs_of_status_ne _ h2, h1, List.nil_append, hm1]
      · rw [h1]; exact hm2
    · obtain ⟨m, hm1, hm2⟩ := ih (step st c).1
      rw [hres] at hm1 hm2 ⊢
      refine ⟨m + 1, ?_, ?_⟩
      · simp only at hm1 ⊢
        rw [hm1, List.range_succ_eq_map, List.map_cons, List.map_map]
        simp only [createdIDs, List.flatMap_cons, List.flatMap_nil, List.map_cons, List.map_nil,
          List.append_nil, List.singleton_append, hid, Nat.add_zero]
        congr 1
        apply List.map_congr_left
        intro k _
        simp only [Function.comp, Nat.succ_eq_add_one]
        congr 1
        omega
      · simp only at hm2 ⊢
        omega

theorem run_counter_mono (cs : List Call) (st : State) :
    st.requestCounter ≤ (run st cs).1.requestCounter := by
  obtain ⟨m, _, h⟩ := run_createdIDs cs st
  omega

theorem storedOK_step (st : State) (c : Call) (h : StoredOK st) : StoredOK (step st c).1 := by
  rcases step_cases st c with ⟨h1, _⟩ | ⟨rec, hid, hopen, hsvc, htime, hres⟩
  · rw [h1]; exact h
  · rw [hres]
    intro e he
    rcases RequestMap.mem_set _ _ _ _ he with rfl | he
    · exact ⟨⟨st.requestCounter + 1, by omega, le_refl _, rfl⟩, hid, hopen, hsvc, htime⟩
    · obtain ⟨⟨n, hn1, hn2, hn3⟩, rest⟩ := h e he
      exact ⟨⟨n, hn1, Nat.le_succ_of_le hn2, hn3⟩, rest⟩

theorem storedOK_run (cs : List Call) (st : State) (h : StoredOK st) : StoredOK (run st cs).1 := by
  induction cs generalizing st with
  | nil => exact h
  | cons c cs ih => rw [run_cons]; exact ih _ (storedOK_step st c h)

theorem storedOK_init : StoredOK State.init := by
  intro e he
  simp [State.init] at he

theorem services_code_unique (s t : Service) (hs : s ∈ services) (ht : t ∈ services)
    (h : s.ServiceCode = t.ServiceCode) : s = t := by
  simp only [services, List.mem_cons, List.mem_singleton, List.not_mem_nil, or_false] at hs ht
  rcases hs with rfl | rfl | rfl <;> rcases ht with rfl | rfl | rfl <;>
    first | rfl | (exact absurd h (by decide))

/-- What a 201 answer of `createRequestHandler` determines. -/
theorem createRequestHandler_created (st : State) (now : Time) (r : PostRequest)
    (rec : ServiceRequestOutput)
    (h : (createRequestHandler st now r).2 = { status := 201, payload := .requestList (some [rec]) }) :
    ∃ i service, r.Method = "POST" ∧ r.Body = .ok i ∧ i.APIKey = validAPIKey
        ∧ i.ServiceCode ≠ ""
        ∧ findServiceByCode i.ServiceCode = some service
        ∧ ¬ (i.Latitude.isZero = true ∧ i.Longitude.isZero = true ∧ i.AddressString = "")
        ∧ rec = { ServiceRequestID := mintID (st.requestCounter + 1)
                  Status := "open"
                  StatusNotes := "Request received and is pending review."
                  ServiceName := service.ServiceName
                  ServiceCode := i.ServiceCode
                  Description := i.Description
                  AgencyResponsible := "City Department of " ++ service.Group
                  ServiceNotice := ""
                  RequestedDatetime := now
                  UpdatedDatetime := now
                  ExpectedDatetime := 0
                  Address := i.AddressString
                  AddressID := ""
                  Zipcode := ""
                  Latitude := i.Latitude
                  Longitude := i.Longitude
                  MediaURL := i.MediaURL }
        ∧ (createRequestHandler st now r).1
            = { requests := st.requests.set (mintID (st.requestCounter + 1)) rec
                requestCounter := st.requestCounter + 1 } := by
  rcases createRequestHandler_cases st now r with ⟨_, h2, _⟩ | ⟨i, service, rec', hm, hb, hk, hc, hf, hl, hrec, hres⟩
  · rw [h] at h2
    exact absurd rfl h2
  · rw [hres] at h
    have heq : rec' = rec := by
      simp only [Response.mk.injEq, Payload.requestList.injEq, Option.some.injEq,
        List.cons.injEq, and_true, true_and] at h
      exact h
    subst heq
    exact ⟨i, service, hm, hb, hk, hc, hf, hl, hrec, by rw [hres]⟩

/-- A request that passes the four checks is answered 201 with the next identifier. -/
theorem createRequestHandler_accept (st : State) (now : Time) (r : PostRequest)
    (i : ServiceRequestInput) (hm : r.Method = "POST") (hb : r.Body = .ok i)
    (hk : i.APIKey = validAPIKey) (hc : i.ServiceCode ≠ "")
    (hs : ∃ s ∈ services, s.ServiceCode = i.ServiceCode)
    (hl : ¬ (i.Latitude.isZero = true ∧ i.Longitude.isZero = true ∧ i.AddressString = "")) :
    (createRequestHandler st now r).2.status = 201
    ∧ createdIDs [(createRequestHandler st now r).2] = [mintID (st.requestCounter + 1)]
    ∧ (createRequestHandler st now r).1.requestCounter = st.requestCounter + 1 := by
  rcases createRequestHandler_cases st now r with ⟨_, _, h3⟩ | ⟨_, _, rec, _, _, _, _, _, _, hrec, hres⟩
  · exact absurd ⟨hm, i, hb, hk, hc, hs, hl⟩ h3
  · rw [hres]
    refine ⟨rfl, ?_, rfl⟩
    simp [createdIDs, hrec]

theorem samplePost_accept (st : State) (now : Time) :
    (createRequestHandler st now samplePost).2.status = 201
    ∧ createdIDs [(createRequestHandler st now samplePost).2] = [mintID (st.requestCounter + 1)]
    ∧ (createRequestHandler st now samplePost).1.requestCounter = st.requestCounter + 1 :=
  createRequestHandler_accept st now samplePost sampleInput rfl rfl (by decide) (by decide)
    ⟨_, List.mem_cons_self _ _, by decide⟩ (by decide)

theorem run_replicate_samplePost (n : Nat) (now : Time) (st : State) :
    (run st (List.replicate n (Call.post now samplePost))).1.requestCounter
      = st.requestCounter + n := by
  induction n generalizing st with
  | zero => rfl
  | succ n ih =>
    rw [List.replicate_succ, run_cons]
    simp only
    rw [ih, step, (samplePost_accept st now).2.2]
    omega

theorem findServiceByCode_none_iff (code : String) :
    findServiceByCode code = none ↔ ∀ s ∈ services, s.ServiceCode ≠ code := by
  unfold findServiceByCode
  rw [List.find?_eq_none]
  simp

theorem sliceAppend_toList {α : Type} (s : Option (List α)) (x : α) :
    (sliceAppend s x).getD [] = s.getD [] ++ [x] := by
  cases s <;> rfl

/-- The scan loop appends, in visiting order, exactly the records that pass both filters. -/
theorem scanLoop_toList (fsc fst : String) (visit : RequestMap)
    (results : Option (List ServiceRequestOutput)) :
    (scanLoop fsc fst visit results).getD []
      = results.getD [] ++ (visit.map Prod.snd).filter
          (fun r => decide ((fsc = "" ∨ r.ServiceCode = fsc) ∧ (fst = "" ∨ r.Status = fst))) := by
  induction visit generalizing results with
  | nil => simp [scanLoop]
  | cons e rest ih =>
    simp only [scanLoop, List.map_cons]
    rw [ih]
    by_cases h1 : fsc = "" <;> by_cases h2 : e.2.ServiceCode = fsc <;>
      by_cases h3 : fst = "" <;> by_cases h4 : e.2.Status = fst <;>
      simp [h1, h2, h3, h4, sliceAppend_toList]

/-- The scan loop leaves a nil slice nil exactly when no visited record passes the filters. -/
theorem scanLoop_eq_none_iff (fsc fst : String) (visit : RequestMap)
    (results : Option (List ServiceRequestOutput)) :
    scanLoop fsc fst visit results = none ↔
      results = none ∧ ∀ e ∈ visit,
        ¬ ((fsc = "" ∨ e.2.ServiceCode = fsc) ∧ (fst = "" ∨ e.2.Status = fst)) := by
  induction visit generalizing results with
  | nil => simp [scanLoop]
  | cons e rest ih =>
    simp only [scanLoop, List.mem_cons, forall_eq_or_imp]
    rw [ih]
    by_cases h1 : fsc = "" <;> by_cases h2 : e.2.ServiceCode = fsc <;>
      by_cases h3 : fst = "" <;> by_cases h4 : e.2.Status = fst <;>
      cases results <;> simp [h1, h2, h3, h4, sliceAppend]

/-- Every response with status 201 carries exactly one identifier. -/
theorem run_count_created (cs : List Call) (st : State) :
    ((run st cs).2.filter (fun r => decide (r.status = 201))).length
      = (createdIDs (run st cs).2).length := by
  induction cs generalizing st with
  | nil => rfl
  | cons c cs ih =>
    rw [run_cons, createdIDs_cons]
    simp only [List.length_append]
    rw [← ih]
    rcases step_cases st c with ⟨_, h2⟩ | ⟨rec, _, _, _, _, hres⟩
    · rw [createdIDs_of_status_ne _ h2, List.filter_cons_of_neg (by simpa using h2)]
      simp
    · rw [hres]
      simp [createdIDs]
      omega

/-- Whenever no stored record passes the filters, the scan answers with the nil slice. -/
theorem scan_without_match_is_nil (st : State) (visit : RequestMap) (fsc fst : String)
    (hvisit : visit.Perm st.requests)
    (hnone : ∀ e ∈ st.requests,
      ¬ ((fsc = "" ∨ e.2.ServiceCode = fsc) ∧ (fst = "" ∨ e.2.Status = fst))) :
    (getRequestsHandler st visit
        { Method := "GET", PathID := "", QueryServiceCode := fsc, QueryStatus := fst }).2
      = { status := 200, payload := .requestList none } := by
  have : scanLoop fsc fst visit none = none :=
    (scanLoop_eq_none_iff fsc fst visit none).2 ⟨rfl, fun e he => hnone e (hvisit.subset he)⟩
  simp [getRequestsHandler, respondWithJSON, this]

theorem RequestMap.get_eq_none_iff (m : RequestMap) (k : String) :
    m.get k = none ↔ ∀ e ∈ m, e.1 ≠ k := by
  constructor
  · intro h e he hk
    induction m with
    | nil => simp at he
    | cons a rest ih =>
      simp only [RequestMap.get] at h
      split at h
      · cases h
      · rename_i hne
        rcases List.mem_cons.1 he with rfl | he
        · exact hne hk
        · exact ih h he
  · exact RequestMap.get_eq_none_of_forall m k

theorem RequestMap.get_of_mem (m : RequestMap) (k : String) (v : ServiceRequestOutput)
    (hkeys : (m.map Prod.fst).Nodup) (h : (k, v) ∈ m) : m.get k = some v := by
  induction m with
  | nil => simp at h
  | cons a rest ih =>
    rw [List.map_cons, List.nodup_cons] at hkeys
    rcases List.mem_cons.1 h with heq | hmem
    · rw [← heq]
      simp [RequestMap.get]
    · have hne : a.1 ≠ k := by
        intro hk
        apply hkeys.1
        rw [hk]
        exact List.mem_map.2 ⟨(k, v), hmem, rfl⟩
      simp only [RequestMap.get, if_neg hne]
      exact ih hkeys.2 hmem

theorem RequestMap.nodup_set (m : RequestMap) (k : String) (v : ServiceRequestOutput)
    (hkeys : (m.map Prod.fst).Nodup) : ((m.set k v).map Prod.fst).Nodup := by
  simp only [RequestMap.set, List.map_cons, List.nodup_cons]
  constructor
  · intro hmem
    obtain ⟨e, he, hek⟩ := List.mem_map.1 hmem
    have := (List.mem_filter.1 he).2
    simp only [ne_eq, decide_not, Bool.not_eq_true', decide_eq_false_iff_not] at this
    exact this hek
  · exact hkeys.sublist ((List.filter_sublist _).map Prod.fst)

/-- The keys of the map are pairwise distinct in every state a run reaches. -/
theorem nodup_keys_run (cs : List Call) (st : State) (h : (st.requests.map Prod.fst).Nodup) :
    ((run st cs).1.requests.map Prod.fst).Nodup := by
  induction cs generalizing st with
  | nil => exact h
  | cons c cs ih =>
    rw [run_cons]
    apply ih
    rcases step_cases st c with ⟨h1, _⟩ | ⟨rec, _, _, _, _, hres⟩
    · rw [h1]; exact h
    · rw [hres]; exact RequestMap.nodup_set _ _ _ h

/-! ## The claims -/

/-- Claim C1.  For every finite sequence of handler calls run one after another from the
initial state, each response with status 201 returns one identifier, and the `k`-th of
them is the identifier minted from counter value `k` (positions counted from one); the
counter values read back from the returned identifiers are `1, 2, ..., m` with no gap,
no identifier is returned twice, and the counter ends at the number of successful
creations, so rejected POSTs and GETs do not advance it. -/
theorem created_ids_follow_counter (cs : List Call) :
    ((run State.init cs).2.filter (fun r => decide (r.status = 201))).length
        = (createdIDs (run State.init cs).2).length
    ∧ (∀ k, k < (createdIDs (run State.init cs).2).length →
        (createdIDs (run State.init cs).2)[k]? = some (mintID (k + 1)))
    ∧ (createdIDs (run State.init cs).2).map numericPortion
        = List.range' 1 (createdIDs (run State.init cs).2).length
    ∧ (createdIDs (run State.init cs).2).Nodup
    ∧ (run State.init cs).1.requestCounter = (createdIDs (run State.init cs).2).length := by
  refine ⟨run_count_created cs State.init, ?_⟩
  obtain ⟨m, h1, h2⟩ := run_createdIDs cs State.init
  have h0 : State.init.requestCounter = 0 := rfl
  rw [h0] at h1 h2
  simp only [Nat.zero_add] at h1 h2
  rw [h1, h2]
  simp only [List.length_map, List.length_range]
  refine ⟨?_, ?_, ?_, trivial⟩
  · intro k hk
    simp [List.getElem?_map, List.getElem?_range hk]
  · rw [List.map_map]
    have : (numericPortion ∘ fun k => mintID (k + 1)) = fun k => k + 1 := by
      funext k; simp [numericPortion_mintID]
    rw [this, List.range'_eq_map_range]
    apply List.map_congr_left
    intro k _; omega
  · exact (List.nodup_range m).map (fun a b h => by
      have := mintID_injective h
      omega)

/-- Claim C2, as amended.  Let A and B be two POSTs answered 201, A first, B after any
further calls, starting from any reachable state.  Then the numeric portion of the
identifier of B is greater than that of A, both identifiers are `SR` followed by at least
six decimal digits, and an identifier has exactly six digits if and only if its numeric
portion is at most 999999. -/
theorem serial_ids_increase (cs₁ cs₂ : List Call) (nowA nowB : Time) (reqA reqB : PostRequest)
    (rA rB : ServiceRequestOutput)
    (hA : (createRequestHandler (run State.init cs₁).1 nowA reqA).2
            = { status := 201, payload := .requestList (some [rA]) })
    (hB : (createRequestHandler
              (run (createRequestHandler (run State.init cs₁).1 nowA reqA).1 cs₂).1 nowB reqB).2
            = { status := 201, payload := .requestList (some [rB]) }) :
    numericPortion rA.ServiceRequestID < numericPortion rB.ServiceRequestID
    ∧ matchesSR6Plus rA.ServiceRequestID = true
    ∧ matchesSR6Plus rB.ServiceRequestID = true
    ∧ (matchesSR6 rA.ServiceRequestID = true ↔ numericPortion rA.ServiceRequestID ≤ 999999)
    ∧ (matchesSR6 rB.ServiceRequestID = true ↔ numericPortion rB.ServiceRequestID ≤ 999999) := by
  obtain ⟨_, _, _, _, _, _, _, _, hrecA, hstA⟩ := createRequestHandler_created _ _ _ _ hA
  obtain ⟨_, _, _, _, _, _, _, _, hrecB, _⟩ := createRequestHandler_created _ _ _ _ hB
  have hidA : rA.ServiceRequestID = mintID ((run State.init cs₁).1.requestCounter + 1) := by
    rw [hrecA]
  have hidB : rB.ServiceRequestID
      = mintID ((run (createRequestHandler (run State.init cs₁).1 nowA reqA).1 cs₂).1.requestCounter
          + 1) := by
    rw [hrecB]
  have hmono := run_counter_mono cs₂ (createRequestHandler (run State.init cs₁).1 nowA reqA).1
  rw [hstA] at hmono
  simp only at hmono
  rw [hstA] at hidB
  rw [hidA, hidB]
  simp only [numericPortion_mintID, matchesSR6Plus_mintID, matchesSR6_mintID, true_and]
  refine ⟨by omega, by omega, by omega⟩

/-- Claim C2, witness: the first two creations from the initial state. -/
theorem serial_ids_increase_witness :
    (createRequestHandler State.init 5 samplePost).2
        = { status := 201, payload := .requestList (some [sampleRecord "SR000001" 5]) }
    ∧ numericPortion "SR000001" < numericPortion "SR000002"
    ∧ matchesSR6Plus "SR000001" = true
    ∧ matchesSR6Plus "SR000002" = true
    ∧ (matchesSR6 "SR000001" = true ↔ numericPortion "SR000001" ≤ 999999)
    ∧ (matchesSR6 "SR000002" = true ↔ numericPortion "SR000002" ≤ 999999) :=
  ⟨by decide,
   serial_ids_increase [] [] 5 6 samplePost samplePost
    (sampleRecord "SR000001" 5) (sampleRecord "SR000002" 6) (by decide) (by decide)⟩

/-- Claim C2, counterexample.  After 999998 accepted POSTs, two more accepted POSTs A and B
are both answered 201; the identifier of B is `SR1000000`, which has seven digits and does not
match `^SR\d{6}$`. -/
theorem six_digit_ids_counterexample :
    (createRequestHandler
        (run State.init (List.replicate 999998 (Call.post 0 samplePost))).1 0 samplePost).2.status
      = 201
    ∧ (createRequestHandler
        (createRequestHandler
          (run State.init (List.replicate 999998 (Call.post 0 samplePost))).1 0 samplePost).1
        0 samplePost).2.status = 201
    ∧ createdIDs [(createRequestHandler
        (createRequestHandler
          (run State.init (List.replicate 999998 (Call.post 0 samplePost))).1 0 samplePost).1
        0 samplePost).2] = ["SR1000000"]
    ∧ matchesSR6 "SR1000000" = false := by
  have hs := run_replicate_samplePost 999998 0 State.init
  generalize (run State.init (List.replicate 999998 (Call.post 0 samplePost))).1 = s at hs ⊢
  have ha := samplePost_accept s 0
  have hb := samplePost_accept (createRequestHandler s 0 samplePost).1 0
  refine ⟨ha.1, hb.1, ?_, by decide⟩
  rw [hb.2.1, ha.2.2, hs]
  decide

/-- Claim C3.  A POST whose body decodes to `i` is answered by the first rule that applies:
wrong key, 401; empty service code, 400; service code of no catalog entry, 400; latitude
and longitude zero with an empty address, 400; each with its message and with `code` the
decimal string of the status.  It is answered 201 exactly when none of the four holds;
in particular zero coordinates with a non-empty address are accepted. -/
theorem create_answers_by_first_rule (st : State) (now : Time) (i : ServiceRequestInput) :
    (i.APIKey ≠ validAPIKey →
      (createRequestHandler st now { Method := "POST", Body := .ok i }).2
        = { status := 401
            payload := .object [("error", "Invalid or missing API key."), ("code", "401")] })
    ∧ (i.APIKey = validAPIKey → i.ServiceCode = "" →
      (createRequestHandler st now { Method := "POST", Body := .ok i }).2
        = { status := 400
            payload := .object [("error", "service_code is required."), ("code", "400")] })
    ∧ (i.APIKey = validAPIKey → i.ServiceCode ≠ "" →
        (∀ s ∈ services, s.ServiceCode ≠ i.ServiceCode) →
      (createRequestHandler st now { Method := "POST", Body := .ok i }).2
        = { status := 400
            payload := .object [("error", "Invalid service_code."), ("code", "400")] })
    ∧ (i.APIKey = validAPIKey → i.ServiceCode ≠ "" →
        (∃ s ∈ services, s.ServiceCode = i.ServiceCode) →
        (i.Latitude.isZero = true ∧ i.Longitude.isZero = true ∧ i.AddressString = "") →
      (createRequestHandler st now { Method := "POST", Body := .ok i }).2
        = { status := 400
            payload := .object [("error", "Either lat/long or address_string is required."),
                                ("code", "400")] })
    ∧ ((createRequestHandler st now { Method := "POST", Body := .ok i }).2.status = 201 ↔
        (i.APIKey = validAPIKey ∧ i.ServiceCode ≠ ""
          ∧ (∃ s ∈ services, s.ServiceCode = i.ServiceCode)
          ∧ ¬ (i.Latitude.isZero = true ∧ i.Longitude.isZero = true ∧ i.AddressString = "")))
    ∧ (i.APIKey = validAPIKey → i.ServiceCode ≠ "" →
        (∃ s ∈ services, s.ServiceCode = i.ServiceCode) →
        i.Latitude.isZero = true → i.Longitude.isZero = true → i.AddressString ≠ "" →
      (createRequestHandler st now { Method := "POST", Body := .ok i }).2.status = 201) := by
  have hiff : (createRequestHandler st now { Method := "POST", Body := .ok i }).2.status = 201 ↔
        (i.APIKey = validAPIKey ∧ i.ServiceCode ≠ ""
          ∧ (∃ s ∈ services, s.ServiceCode = i.ServiceCode)
          ∧ ¬ (i.Latitude.isZero = true ∧ i.Longitude.isZero = true ∧ i.AddressString = "")) := by
    constructor
    · intro h
      rcases createRequestHandler_cases st now { Method := "POST", Body := .ok i } with
        ⟨_, h2, _⟩ | ⟨j, service, _, _, hb, hk, hc, hf, hl, _, _⟩
      · exact absurd h h2
      · cases hb
        exact ⟨hk, hc, ⟨service, (findServiceByCode_some _ _ hf).1,
          (findServiceByCode_some _ _ hf).2⟩, hl⟩
    · rintro ⟨hk, hc, hs, hl⟩
      exact (createRequestHandler_accept st now _ i rfl rfl hk hc hs hl).1
  refine ⟨?_, ?_, ?_, ?_, hiff, ?_⟩
  · intro hk
    simp [createRequestHandler, hk]
    decide
  · intro hk hc
    simp [createRequestHandler, hk, hc]
    decide
  · intro hk hc hs
    have hf := (findServiceByCode_none_iff i.ServiceCode).2 hs
    simp [createRequestHandler, hk, hc, hf]
    decide
  · intro hk hc hs hl
    obtain ⟨s, hs1, hs2⟩ := hs
    rcases hf : findServiceByCode i.ServiceCode with _ | service
    · exact absurd hs2 ((findServiceByCode_none_iff _).1 hf s hs1)
    · simp [createRequestHandler, hk, hc, hf, hl.1, hl.2.1, hl.2.2]
      decide
  · intro hk hc hs h1 h2 h3
    exact hiff.2 ⟨hk, hc, hs, fun h => h3 h.2.2⟩

/-- Claim C4.  When a POST with decoded input `i` at time `now` is answered 201 with record
`r`: the status is `open`, the status notes are the fixed text, the service code is that
of `i`, the service name and the agency are those of the catalog entry with that code,
both timestamps are `now`, and description, address, latitude, longitude and media URL
are copied from `i`. -/
theorem created_record_fields (st : State) (now : Time) (req : PostRequest)
    (i : ServiceRequestInput) (r : ServiceRequestOutput)
    (hi : req.Body = .ok i)
    (h : (createRequestHandler st now req).2
          = { status := 201, payload := .requestList (some [r]) }) :
    r.Status = "open"
    ∧ r.StatusNotes = "Request received and is pending review."
    ∧ r.ServiceCode = i.ServiceCode
    ∧ (∃ s ∈ services, s.ServiceCode = i.ServiceCode)
    ∧ (∀ s ∈ services, s.ServiceCode = i.ServiceCode →
        r.ServiceName = s.ServiceName ∧ r.AgencyResponsible = "City Department of " ++ s.Group)
    ∧ r.RequestedDatetime = now
    ∧ r.UpdatedDatetime = now
    ∧ r.Description = i.Description
    ∧ r.Address = i.AddressString
    ∧ r.Latitude = i.Latitude
    ∧ r.Longitude = i.Longitude
    ∧ r.MediaURL = i.MediaURL := by
  obtain ⟨j, service, _, hb, _, _, hf, _, hrec, _⟩ := createRequestHandler_created st now req r h
  rw [hi] at hb
  cases hb
  have hsvc := findServiceByCode_some _ _ hf
  subst hrec
  refine ⟨rfl, rfl, rfl, ⟨service, hsvc.1, hsvc.2⟩, ?_, rfl, rfl, rfl, rfl, rfl, rfl, rfl⟩
  intro s hs hsc
  have : s = service := services_code_unique s service hs hsvc.1 (hsc.trans hsvc.2.symm)
  subst this
  exact ⟨rfl, rfl⟩

/-- Claim C4, witness: the sample POST on the initial state at time 5. -/
theorem created_record_fields_witness :
    (createRequestHandler State.init 5 samplePost).2
        = { status := 201, payload := .requestList (some [sampleRecord "SR000001" 5]) }
    ∧ (sampleRecord "SR000001" 5).Status = "open"
    ∧ (sampleRecord "SR000001" 5).StatusNotes = "Request received and is pending review."
    ∧ (sampleRecord "SR000001" 5).ServiceCode = sampleInput.ServiceCode
    ∧ (∃ s ∈ services, s.ServiceCode = sampleInput.ServiceCode)
    ∧ (∀ s ∈ services, s.ServiceCode = sampleInput.ServiceCode →
        (sampleRecord "SR000001" 5).ServiceName = s.ServiceName
        ∧ (sampleRecord "SR000001" 5).AgencyResponsible = "City Department of " ++ s.Group)
    ∧ (sampleRecord "SR000001" 5).RequestedDatetime = 5
    ∧ (sampleRecord "SR000001" 5).UpdatedDatetime = 5
    ∧ (sampleRecord "SR000001" 5).Description = sampleInput.Description
    ∧ (sampleRecord "SR000001" 5).Address = sampleInput.AddressString
    ∧ (sampleRecord "SR000001" 5).Latitude = sampleInput.Latitude
    ∧ (sampleRecord "SR000001" 5).Longitude = sampleInput.Longitude
    ∧ (sampleRecord "SR000001" 5).MediaURL = sampleInput.MediaURL :=
  ⟨by decide,
   created_record_fields State.init 5 samplePost sampleInput (sampleRecord "SR000001" 5) rfl
    (by decide)⟩

/-- Claim C5.  In every reachable state, after a POST answered 201 with record `r`, a GET
with path identifier `r.ServiceRequestID` is answered 200 with the one-element array
holding `r`; and every record that could be looked up before the POST is still stored
unchanged and is returned by a GET for its identifier. -/
theorem get_after_create (cs : List Call) (now : Time) (req : PostRequest)
    (r : ServiceRequestOutput)
    (h : (createRequestHandler (run State.init cs).1 now req).2
          = { status := 201, payload := .requestList (some [r]) }) :
    (∀ (visit : RequestMap) (fsc fst : String),
        (getRequestsHandler (createRequestHandler (run State.init cs).1 now req).1 visit
            { Method := "GET", PathID := r.ServiceRequestID,
              QueryServiceCode := fsc, QueryStatus := fst }).2
          = { status := 200, payload := .requestList (some [r]) })
    ∧ (∀ (id : String) (old : ServiceRequestOutput),
        (run State.init cs).1.requests.get id = some old →
          (createRequestHandler (run State.init cs).1 now req).1.requests.get id = some old
          ∧ ∀ (visit : RequestMap) (fsc fst : String),
              (getRequestsHandler (createRequestHandler (run State.init cs).1 now req).1 visit
                  { Method := "GET", PathID := id,
                    QueryServiceCode := fsc, QueryStatus := fst }).2
                = { status := 200, payload := .requestList (some [old]) }) := by
  obtain ⟨_, _, _, _, _, _, _, _, hrec, hst⟩ := createRequestHandler_created _ _ _ _ h
  have hid : r.ServiceRequestID = mintID ((run State.init cs).1.requestCounter + 1) := by
    rw [hrec]
  have hne : ∀ n, mintID n ≠ "" := by
    intro n hn
    have := congrArg String.data hn
    rw [mintID_data] at this
    exact absurd this (by simp)
  have hget : ∀ (st : State) (id : String) (rec : ServiceRequestOutput) (visit : RequestMap)
      (fsc fst : String), id ≠ "" → st.requests.get id = some rec →
      (getRequestsHandler st visit ⟨"GET", id, fsc, fst⟩).2
        = ⟨200, .requestList (some [rec])⟩ := by
    intro st id rec visit fsc fst hid hrec
    simp [getRequestsHandler, hid, hrec, respondWithJSON]
  constructor
  · intro visit fsc fst
    apply hget
    · rw [hid]; exact hne _
    · rw [hst, hid]
      exact RequestMap.get_set_same _ _ _
  · intro id old hold
    have hmem := RequestMap.mem_of_get _ _ _ hold
    obtain ⟨⟨n, _, hn2, hn3⟩, _⟩ := storedOK_run cs State.init storedOK_init _ hmem
    simp only at hn3
    have hidne : id ≠ mintID ((run State.init cs).1.requestCounter + 1) := by
      rw [hn3]
      intro heq
      have := mintID_injective heq
      omega
    have hkeep : (createRequestHandler (run State.init cs).1 now req).1.requests.get id
        = some old := by
      rw [hst]
      simp only
      rw [RequestMap.get_set_ne _ _ _ _ hidne]
      exact hold
    refine ⟨hkeep, fun visit fsc fst => hget _ _ _ _ _ _ ?_ hkeep⟩
    rw [hn3]; exact hne _

/-- Claim C5, witness: a second creation after a first one. -/
theorem get_after_create_witness :
    (createRequestHandler (run State.init [Call.post 5 samplePost]).1 6 samplePost).2
        = { status := 201, payload := .requestList (some [sampleRecord "SR000002" 6]) }
    ∧ (∀ (visit : RequestMap) (fsc fst : String),
        (getRequestsHandler
            (createRequestHandler (run State.init [Call.post 5 samplePost]).1 6 samplePost).1
            visit
            { Method := "GET", PathID := (sampleRecord "SR000002" 6).ServiceRequestID,
              QueryServiceCode := fsc, QueryStatus := fst }).2
          = { status := 200, payload := .requestList (some [sampleRecord "SR000002" 6]) })
    ∧ (∀ (id : String) (old : ServiceRequestOutput),
        (run State.init [Call.post 5 samplePost]).1.requests.get id = some old →
          (createRequestHandler
              (run State.init [Call.post 5 samplePost]).1 6 samplePost).1.requests.get id
            = some old
          ∧ ∀ (visit : RequestMap) (fsc fst : String),
              (getRequestsHandler
                  (createRequestHandler
                    (run State.init [Call.post 5 samplePost]).1 6 samplePost).1 visit
                  { Method := "GET", PathID := id,
                    QueryServiceCode := fsc, QueryStatus := fst }).2
                = { status := 200, payload := .requestList (some [old]) }) :=
  ⟨by decide,
   get_after_create [Call.post 5 samplePost] 6 samplePost (sampleRecord "SR000002" 6)
    (by decide)⟩

/-- Claim C6.  For every registry state, every visiting order of the map and every pair
of filters, the scan branch answers 200 with a slice whose elements are, up to order,
exactly the stored records passing both filters (an empty filter passes every record):
each record occurs as often as it is stored if it passes, and not at all otherwise.  With
both filters empty the result holds every stored record. -/
theorem scan_returns_matching (st : State) (visit : RequestMap) (fsc fst : String)
    (hvisit : visit.Perm st.requests) :
    ∃ results : Option (List ServiceRequestOutput),
      getRequestsHandler st visit
          { Method := "GET", PathID := "", QueryServiceCode := fsc, QueryStatus := fst }
        = (st, { status := 200, payload := .requestList results })
      ∧ (results.getD []).Perm
          ((st.requests.map Prod.snd).filter
            (fun r => decide ((fsc = "" ∨ r.ServiceCode = fsc) ∧ (fst = "" ∨ r.Status = fst))))
      ∧ (∀ r : ServiceRequestOutput,
          (results.getD []).count r
            = if (fsc = "" ∨ r.ServiceCode = fsc) ∧ (fst = "" ∨ r.Status = fst)
              then (st.requests.map Prod.snd).count r else 0)
      ∧ (fsc = "" → fst = "" → (results.getD []).Perm (st.requests.map Prod.snd)) := by
  refine ⟨scanLoop fsc fst visit none, ?_, ?_, ?_, ?_⟩
  · simp [getRequestsHandler, respondWithJSON]
  · rw [scanLoop_toList]
    simpa using (hvisit.map Prod.snd).filter _
  · intro r
    have hp : ((scanLoop fsc fst visit none).getD []).Perm
        ((st.requests.map Prod.snd).filter
          (fun r => decide ((fsc = "" ∨ r.ServiceCode = fsc) ∧ (fst = "" ∨ r.Status = fst)))) := by
      rw [scanLoop_toList]
      simpa using (hvisit.map Prod.snd).filter _
    rw [hp.count_eq]
    split
    · rename_i hr
      exact List.count_filter (by simpa using hr)
    · rename_i hr
      apply List.count_eq_zero_of_not_mem
      intro hmem
      have := (List.mem_filter.1 hmem).2
      exact hr (by simpa using this)
  · intro h1 h2
    rw [scanLoop_toList]
    simpa [h1, h2] using hvisit.map Prod.snd

/-- Claim C6, witness: a scan for service code `001` over two stored records, visited in
the order opposite to the stored one. -/
theorem scan_returns_matching_witness :
    List.Perm [("SR000001", sampleRecord "SR000001" 5), ("SR000002", sampleRecord "SR000002" 6)]
      sampleState.requests
    ∧ ∃ results : Option (List ServiceRequestOutput),
      getRequestsHandler sampleState
          [("SR000001", sampleRecord "SR000001" 5), ("SR000002", sampleRecord "SR000002" 6)]
          { Method := "GET", PathID := "", QueryServiceCode := "001", QueryStatus := "" }
        = (sampleState, { status := 200, payload := .requestList results })
      ∧ (results.getD []).Perm
          ((sampleState.requests.map Prod.snd).filter
            (fun r => decide (("001" = "" ∨ r.ServiceCode = "001") ∧ ("" = "" ∨ r.Status = ""))))
      ∧ (∀ r : ServiceRequestOutput,
          (results.getD []).count r
            = if ("001" = "" ∨ r.ServiceCode = "001") ∧ ("" = "" ∨ r.Status = "")
              then (sampleState.requests.map Prod.snd).count r else 0)
      ∧ ("001" = "" → "" = "" → (results.getD []).Perm (sampleState.requests.map Prod.snd)) :=
  ⟨List.Perm.swap _ _ _,
   scan_returns_matching sampleState
    [("SR000001", sampleRecord "SR000001" 5), ("SR000002", sampleRecord "SR000002" 6)]
    "001" "" (List.Perm.swap _ _ _)⟩

/-- Claim C7, evaluated on the code.  On the empty registry with no filters the scan branch
answers 200 with the nil slice, and `json.Marshal` encodes a nil slice as `null`, which is
not the text `[]`. -/
theorem empty_scan_body_is_null (enc : ServiceRequestOutput → String) :
    ∃ results : Option (List ServiceRequestOutput),
      getRequestsHandler State.init []
          { Method := "GET", PathID := "", QueryServiceCode := "", QueryStatus := "" }
        = (State.init, { status := 200, payload := .requestList results })
      ∧ marshalSlice enc results = "null"
      ∧ marshalSlice enc results ≠ "[]" :=
  ⟨none, by decide, rfl, by show "null" ≠ "[]"; decide⟩

/-- Claim C8.  For every registry state (a map: the keys of its entries are pairwise
distinct) and every non-empty path identifier, the answer is 404 with the message
`Service request not found: ` followed by the identifier exactly when no entry of the
registry has that key; whenever the registry holds the entry `(id, rec)` the answer is 200
with the one-element array holding `rec`; one of the two always happens; the state is
returned unchanged; and on the initial state the answer is 404. -/
theorem get_by_id_found_or_404 (st : State) (visit : RequestMap) (id fsc fst : String)
    (hid : id ≠ "") (hkeys : (st.requests.map Prod.fst).Nodup) :
    ((getRequestsHandler st visit
          { Method := "GET", PathID := id, QueryServiceCode := fsc, QueryStatus := fst }).2
        = { status := 404
            payload := .object [("error", "Service request not found: " ++ id), ("code", "404")] }
      ↔ ∀ e ∈ st.requests, e.1 ≠ id)
    ∧ (∀ rec : ServiceRequestOutput, (id, rec) ∈ st.requests →
        (getRequestsHandler st visit
          { Method := "GET", PathID := id, QueryServiceCode := fsc, QueryStatus := fst }).2
        = { status := 200, payload := .requestList (some [rec]) })
    ∧ ((∀ e ∈ st.requests, e.1 ≠ id)
        ∨ ∃ rec : ServiceRequestOutput, (id, rec) ∈ st.requests
            ∧ (getRequestsHandler st visit
                { Method := "GET", PathID := id, QueryServiceCode := fsc,
                  QueryStatus := fst }).2
              = { status := 200, payload := .requestList (some [rec]) })
    ∧ (getRequestsHandler st visit
          { Method := "GET", PathID := id, QueryServiceCode := fsc, QueryStatus := fst }).1 = st
    ∧ (getRequestsHandler State.init visit
          { Method := "GET", PathID := id, QueryServiceCode := fsc, QueryStatus := fst }).2
        = { status := 404
            payload := .object [("error", "Service request not found: " ++ id), ("code", "404")] }
    := by
  have h404 : itoa 404 = "404" := by decide
  have hfound : ∀ rec : ServiceRequestOutput, st.requests.get id = some rec →
      (getRequestsHandler st visit ⟨"GET", id, fsc, fst⟩).2
        = ⟨200, .requestList (some [rec])⟩ := by
    intro rec hg
    simp [getRequestsHandler, hid, hg, respondWithJSON]
  refine ⟨?_, ?_, ?_, getRequestsHandler_fst _ _ _, ?_⟩
  · rw [← RequestMap.get_eq_none_iff]
    rcases hg : st.requests.get id with _ | rec
    · simp [getRequestsHandler, hid, hg, respondWithError, respondWithJSON, h404]
    · simp [getRequestsHandler, hid, hg, respondWithError, respondWithJSON]
  · intro rec hmem
    exact hfound rec (RequestMap.get_of_mem _ _ _ hkeys hmem)
  · rcases hg : st.requests.get id with _ | rec
    · exact Or.inl ((RequestMap.get_eq_none_iff _ _).1 hg)
    · exact Or.inr ⟨rec, RequestMap.mem_of_get _ _ _ hg, hfound rec hg⟩
  · simp [getRequestsHandler, hid, State.init, RequestMap.get, respondWithError,
      respondWithJSON, h404]

/-- Claim C8, witness: on the sample registry, whose keys are distinct, the stored
identifier `SR000001` is answered 200 with its record, the state is returned unchanged,
and on the initial state the same identifier is answered 404. -/
theorem get_by_id_found_or_404_witness :
    "SR000001" ≠ ""
    ∧ (sampleState.requests.map Prod.fst).Nodup
    ∧ ("SR000001", sampleRecord "SR000001" 5) ∈ sampleState.requests
    ∧ (getRequestsHandler sampleState []
          { Method := "GET", PathID := "SR000001", QueryServiceCode := "", QueryStatus := "" }).2
        = { status := 200, payload := .requestList (some [sampleRecord "SR000001" 5]) }
    ∧ (getRequestsHandler sampleState []
          { Method := "GET", PathID := "SR000001", QueryServiceCode := "", QueryStatus := "" }).1
        = sampleState
    ∧ (getRequestsHandler State.init []
          { Method := "GET", PathID := "SR000001", QueryServiceCode := "", QueryStatus := "" }).2
        = { status := 404
            payload := .object [("error", "Service request not found: " ++ "SR000001"),
                                ("code", "404")] } :=
  ⟨by decide, by decide, by decide,
   (get_by_id_found_or_404 sampleState [] "SR000001" "" "" (by decide) (by decide)).2.1
     (sampleRecord "SR000001" 5) (by decide),
   (get_by_id_found_or_404 sampleState [] "SR000001" "" "" (by decide) (by decide)).2.2.2.1,
   (get_by_id_found_or_404 sampleState [] "SR000001" "" "" (by decide) (by decide)).2.2.2.2⟩

/-- Claim C9.  In every state reachable from the initial state, every stored record has a
service code of the catalog, a requested time not after its updated time, and status
`open`; hence a scan with the status filter `closed` returns no record. -/
theorem stored_records_invariant (cs : List Call) :
    (∀ e ∈ (run State.init cs).1.requests,
        (∃ s ∈ services, s.ServiceCode = e.2.ServiceCode)
        ∧ e.2.RequestedDatetime ≤ e.2.UpdatedDatetime
        ∧ e.2.Status = "open")
    ∧ (∀ (visit : RequestMap) (fsc : String), visit.Perm (run State.init cs).1.requests →
        ∃ results : Option (List ServiceRequestOutput),
          (getRequestsHandler (run State.init cs).1 visit
              { Method := "GET", PathID := "", QueryServiceCode := fsc,
                QueryStatus := "closed" }).2
            = { status := 200, payload := .requestList results }
          ∧ results.getD [] = []) := by
  have hinv := storedOK_run cs State.init storedOK_init
  constructor
  · intro e he
    obtain ⟨_, _, hopen, hsvc, htime⟩ := hinv e he
    exact ⟨hsvc, le_of_eq htime, hopen⟩
  · intro visit fsc hperm
    refine ⟨scanLoop fsc "closed" visit none, by simp [getRequestsHandler, respondWithJSON], ?_⟩
    rw [scanLoop_toList]
    simp only [Option.getD_none, List.nil_append, List.filter_eq_nil_iff, List.mem_map]
    rintro r ⟨e, he, rfl⟩
    obtain ⟨_, _, hopen, _, _⟩ := hinv e (hperm.subset he)
    simp [hopen]

end Open311
